import Mathlib

set_option linter.unusedVariables false

/-!
Verification development for the tablestore-typeorm core: the query
planner (query-builder), the partition-scoped transaction coordinator
(transaction.ts), the filter expression builder (filter-factory.ts) and
the pagination cursor codec (pagination.ts), shallowly embedded from the
TypeScript source. Timestamps are modeled as integer milliseconds; JS
numbers that occur in primary keys and cursors are modeled as integers
(the code's Number.isInteger branch), and the Date/transformer branches
of value conversion, which the claims never exercise, are omitted.
-/

namespace TsOrm

/-- A JavaScript value as it crosses the entity/predicate boundary:
a string, an integral number, or a boolean. -/
inductive JSValue where
  | vStr (s : String)
  | vInt (n : Int)
  | vBool (b : Bool)
deriving DecidableEq, Repr

/-- A Tablestore primary-key cell value: a raw pass-through JS value, a
Tablestore.Long (the integer branch of convertValueToTablestore), or one
of the infinity sentinels Tablestore.INF_MIN / Tablestore.INF_MAX. -/
inductive CellValue where
  | raw (v : JSValue)
  | long (n : Int)
  | infMin
  | infMax
deriving DecidableEq, Repr

/-- One column of an entity's metadata (decorators/metadata-storage):
its property name and whether it is a primary-key column. -/
structure ColumnMetadata where
  propertyName : String
  isPrimary : Bool
deriving DecidableEq, Repr

/-- Entity metadata as registered by the decorators: table name, the
ordered primary-key columns, and all columns (primary ones included,
marked by isPrimary). -/
structure EntityMetadata where
  tableName : String
  primaryColumns : List ColumnMetadata
  columns : List ColumnMetadata
deriving DecidableEq, Repr

/-- Reading a property of a JS object (a Partial of the entity), as an
association list: the first binding of the key, none when the property
is absent (undefined). The source's checks `value !== undefined &&
value !== null` both map to this Option being some. -/
def lookupVal (obj : List (String × JSValue)) (key : String) : Option JSValue :=
  (obj.find? (fun p => p.fst == key)).map (fun p => p.snd)

/-- Sort direction of the query builder's orderBy. -/
inductive OrderDirection where
  | asc
  | desc
deriving DecidableEq, Repr

/-- The store's traversal primitive (Tablestore.Direction). -/
inductive TsDirection where
  | forward
  | backward
deriving DecidableEq, Repr

/-- QueryBuilder.convertValueToTablestore: an integral number becomes a
Tablestore.Long, every other value is passed through unchanged. -/
def convertValueToTablestoreQB (value : JSValue) : CellValue :=
  match value with
  | JSValue.vInt n => CellValue.long n
  | v => CellValue.raw v

/-- QueryBuilder.autoCompletePartialPrimaryKey: walk the ordered primary
columns; a column bound in the partial key is emitted with its converted
value; an unbound column is emitted as INF_MIN or INF_MAX depending on
isStart and on the sort direction (start: ASC gives INF_MIN, DESC gives
INF_MAX; end: the opposite). The source's foundPartialKey flag is
write-only and has no effect on the result. -/
def autoCompletePartialPrimaryKey (md : EntityMetadata)
    (partialKeys : List (String × JSValue)) (isStart : Bool)
    (direction : OrderDirection) : List (String × CellValue) :=
  md.primaryColumns.map (fun column =>
    match lookupVal partialKeys column.propertyName with
    | some value => (column.propertyName, convertValueToTablestoreQB value)
    | none =>
      if isStart then
        (column.propertyName,
          if direction = OrderDirection.asc then CellValue.infMin else CellValue.infMax)
      else
        (column.propertyName,
          if direction = OrderDirection.asc then CellValue.infMax else CellValue.infMin))

/-- EntityManager.autoCompletePartialPrimaryKey: the same completion
without a direction parameter — an unbound column becomes INF_MIN at the
start boundary and INF_MAX at the end boundary. -/
def autoCompletePartialPrimaryKeyEM (md : EntityMetadata)
    (partialKeys : List (String × JSValue)) (isStart : Bool) : List (String × CellValue) :=
  md.primaryColumns.map (fun column =>
    match lookupVal partialKeys column.propertyName with
    | some value => (column.propertyName, convertValueToTablestoreQB value)
    | none =>
      if isStart then (column.propertyName, CellValue.infMin)
      else (column.propertyName, CellValue.infMax))

/-- Name of the i-th primary-key column (out-of-range gives the empty
name; only used at in-range indices). -/
def pkName (md : EntityMetadata) (i : Nat) : String :=
  (md.primaryColumns.getD i (ColumnMetadata.mk "" false)).propertyName

/-- Default pair used with List.getD on boundaries (never selected at
in-range indices). -/
def dfltCell : String × CellValue := ("", CellValue.infMin)

/-- Tablestore.ComparatorType. -/
inductive ComparatorType where
  | equal
  | notEqual
  | greaterThan
  | greaterEqual
  | lessThan
  | lessEqual
deriving DecidableEq, Repr

/-- Tablestore.LogicalOperator. -/
inductive LogicalOperator where
  | logicalAnd
  | logicalOr
  | logicalNot
deriving DecidableEq, Repr

/-- A Tablestore ColumnCondition: a SingleColumnCondition leaf or a
CompositeCondition with subconditions. -/
inductive Filter where
  | single (fieldName : String) (value : CellValue) (comparator : ComparatorType)
      (passIfMissing latestVersionOnly : Bool)
  | composite (op : LogicalOperator) (subConditions : List Filter)
deriving Repr

/-- The mutable query state a QueryBuilder accumulates before execution
(select / where / orderBy / limit / explicit range keys / columnFilter).
The string-condition overload of where(), which the source stores but
never interprets, is not modeled: _where is always the object form. -/
structure QueryBuilderState where
  _select : List String
  _where : List (String × JSValue)
  _orderBy : List (String × OrderDirection)
  _limit : Option Int
  _startPrimaryKey : Option (List (String × CellValue))
  _endPrimaryKey : Option (List (String × CellValue))
  _columnCondition : Option Filter
deriving Repr

/-- QueryBuilder.isExactPrimaryKeyQuery: every primary-key column name
occurs among the keys of _where. -/
def isExactPrimaryKeyQuery (md : EntityMetadata) (st : QueryBuilderState) : Bool :=
  md.primaryColumns.all (fun col => st._where.any (fun p => p.fst == col.propertyName))

/-- QueryBuilder.isPartialPrimaryKeyQuery: some key of _where is a
primary-key column name, but not every primary-key column is bound. -/
def isPartialPrimaryKeyQuery (md : EntityMetadata) (st : QueryBuilderState) : Bool :=
  st._where.any (fun p => md.primaryColumns.any (fun col => col.propertyName == p.fst))
    && !(md.primaryColumns.all (fun col => st._where.any (fun p => p.fst == col.propertyName)))

/-- QueryBuilder.getDirection: BACKWARD when the first orderBy entry is
DESC, otherwise FORWARD. -/
def getDirection (st : QueryBuilderState) : TsDirection :=
  match st._orderBy with
  | [] => TsDirection.forward
  | (_, dir) :: _ =>
    if dir = OrderDirection.desc then TsDirection.backward else TsDirection.forward

/-- QueryBuilder.getOrderDirection: DESC when the first orderBy entry is
DESC, otherwise ASC. -/
def getOrderDirection (st : QueryBuilderState) : OrderDirection :=
  match st._orderBy with
  | [] => OrderDirection.asc
  | (_, dir) :: _ =>
    if dir = OrderDirection.desc then OrderDirection.desc else OrderDirection.asc

/-- QueryBuilder.buildMinPrimaryKey: every primary column paired with INF_MIN. -/
def buildMinPrimaryKey (md : EntityMetadata) : List (String × CellValue) :=
  md.primaryColumns.map (fun column => (column.propertyName, CellValue.infMin))

/-- QueryBuilder.buildMaxPrimaryKey: every primary column paired with INF_MAX. -/
def buildMaxPrimaryKey (md : EntityMetadata) : List (String × CellValue) :=
  md.primaryColumns.map (fun column => (column.propertyName, CellValue.infMax))

/-- QueryBuilder.convertPrimaryKeysToTablestore: bound primary columns
in schema order, each with its converted value; unbound columns are
skipped silently. -/
def convertPrimaryKeysToTablestoreQB (md : EntityMetadata)
    (primaryKeys : List (String × JSValue)) : List (String × CellValue) :=
  md.primaryColumns.filterMap (fun column =>
    (lookupVal primaryKeys column.propertyName).map
      (fun v => (column.propertyName, convertValueToTablestoreQB v)))

/-- QueryBuilder.convertPartialPrimaryKeyToRange: fill _startPrimaryKey
and _endPrimaryKey from _where (when not already set) using
autoCompletePartialPrimaryKey under the current order direction, then
clear _where. -/
def convertPartialPrimaryKeyToRange (md : EntityMetadata)
    (st : QueryBuilderState) : QueryBuilderState :=
  let orderDirection := getOrderDirection st
  let st1 :=
    match st._startPrimaryKey with
    | some _ => st
    | none =>
      { st with _startPrimaryKey := some (autoCompletePartialPrimaryKey md st._where true orderDirection) }
  let st2 :=
    match st1._endPrimaryKey with
    | some _ => st1
    | none =>
      { st1 with _endPrimaryKey := some (autoCompletePartialPrimaryKey md st1._where false orderDirection) }
  { st2 with _where := [] }

/-- Parameters of the client.getRow call issued by executeGetRowQuery.
The SDK accepts columnFilter and transactionId fields too; this call
site passes neither, so they are none here. -/
structure GetRowParams where
  tableName : String
  primaryKey : List (String × CellValue)
  columnsToGet : Option (List String)
  columnFilter : Option Filter
  transactionId : Option String
deriving Repr

/-- Parameters of the client.getRange call issued by executeGetRangeQuery. -/
structure GetRangeParams where
  tableName : String
  inclusiveStartPrimaryKey : List (String × CellValue)
  exclusiveEndPrimaryKey : List (String × CellValue)
  limit : Int
  direction : TsDirection
  columnsToGet : Option (List String)
  columnFilter : Option Filter
deriving Repr

/-- The request executeQuery hands to the store client. -/
inductive TsRequest where
  | getRow (params : GetRowParams)
  | getRange (params : GetRangeParams)
deriving Repr

/-- JS `x || dflt` on the optional numeric limit: undefined and 0 are
falsy, so both select the default. -/
def jsOrDefault (limit : Option Int) (dflt : Int) : Int :=
  match limit with
  | none => dflt
  | some v => if v = 0 then dflt else v

/-- The getRow request built by QueryBuilder.executeGetRowQuery. -/
def executeGetRowRequest (md : EntityMetadata) (st : QueryBuilderState) : GetRowParams :=
  GetRowParams.mk md.tableName (convertPrimaryKeysToTablestoreQB md st._where)
    (if st._select.isEmpty then none else some st._select) none none

/-- The getRange request built by QueryBuilder.executeGetRangeQuery:
BACKWARD swaps which default boundary (max/min) backs the start and end
keys, the limit defaults to 100 through JS falsiness, and the
accumulated columnFilter is attached. -/
def executeGetRangeRequest (md : EntityMetadata) (st : QueryBuilderState) : GetRangeParams :=
  let direction := getDirection st
  let inclusiveStartPrimaryKey :=
    if direction = TsDirection.backward then st._startPrimaryKey.getD (buildMaxPrimaryKey md)
    else st._startPrimaryKey.getD (buildMinPrimaryKey md)
  let exclusiveEndPrimaryKey :=
    if direction = TsDirection.backward then st._endPrimaryKey.getD (buildMinPrimaryKey md)
    else st._endPrimaryKey.getD (buildMaxPrimaryKey md)
  GetRangeParams.mk md.tableName inclusiveStartPrimaryKey exclusiveEndPrimaryKey
    (jsOrDefault st._limit 100) direction
    (if st._select.isEmpty then none else some st._select)
    st._columnCondition

/-- QueryBuilder.executeQuery, planning part: an exact primary-key
predicate becomes a getRow request; otherwise a partial predicate is
first converted to range boundaries and a getRange request is issued. -/
def executeQueryRequest (md : EntityMetadata) (st : QueryBuilderState) : TsRequest :=
  if isExactPrimaryKeyQuery md st then
    TsRequest.getRow (executeGetRowRequest md st)
  else
    let st1 := if isPartialPrimaryKeyQuery md st then convertPartialPrimaryKeyToRange md st else st
    TsRequest.getRange (executeGetRangeRequest md st1)

/-- A row as the store returns it. -/
structure Row where
  primaryKey : List (String × CellValue)
  attributes : List (String × JSValue)
deriving DecidableEq, Repr

/-- Result handling of executeGetRowQuery: a missing row yields no
entities, a present row yields exactly that row (value conversion back
to an entity is the identity at this level of modeling); the builder
state — its _columnCondition included — is not consulted. -/
def executeGetRowEntities (st : QueryBuilderState) (response : Option Row) : List Row :=
  match response with
  | none => []
  | some row => [row]

/-- Transaction lifecycle status (transaction.ts TransactionStatus). -/
inductive TransactionStatus where
  | active
  | committed
  | aborted
  | timeout
deriving DecidableEq, Repr

/-- The mutable state of a Transaction instance: the table it is bound
to, the partition key fixed at start, the store-issued transaction id,
the start instant, the timeout duration (milliseconds) and the status.
Instants are integer milliseconds (Date.now()). -/
structure TransactionState where
  tableName : String
  partitionKey : List (String × JSValue)
  transactionId : String
  startTime : Int
  timeout : Int
  status : TransactionStatus
deriving DecidableEq, Repr

/-- Errors the coordinator throws (the source throws plain Error values;
they are distinguished here by the condition that raised them). -/
inductive TxError where
  | stateError (status : TransactionStatus)
  | noPrimaryKeyColumn
  | partitionMismatch (entityValue txValue : Option JSValue)
  | keyError (column : String)
  | mixedTables
  | clientError
deriving DecidableEq, Repr

/-- A network call the coordinator issues through the store client,
tagged with the transaction id. Attribute payloads and conditions are
carried as far as the claims need them. -/
inductive ClientCall where
  | putRow (tableName : String) (primaryKey : List (String × CellValue))
      (attributeColumns : List (String × CellValue)) (transactionId : String)
  | updateRow (tableName : String) (primaryKey : List (String × CellValue))
      (transactionId : String)
  | deleteRow (tableName : String) (primaryKey : List (String × CellValue))
      (transactionId : String)
  | getRowTx (tableName : String) (primaryKey : List (String × CellValue))
      (transactionId : String)
  | batchWriteRow (tableName : String) (requests : List String) (transactionId : String)
  | commitTransaction (transactionId : String)
  | abortTransaction (transactionId : String)
deriving DecidableEq, Repr

/-- Transaction.isActive: false when the status is no longer ACTIVE;
otherwise, when the elapsed wall-clock time strictly exceeds the
timeout, the status moves to TIMEOUT and the check reports false; else
true. Returns the (possibly updated) state together with the answer. -/
def Transaction.isActive (tx : TransactionState) (now : Int) : TransactionState × Bool :=
  if tx.status ≠ TransactionStatus.active then (tx, false)
  else if now - tx.startTime > tx.timeout then
    ({ tx with status := TransactionStatus.timeout }, false)
  else (tx, true)

/-- Transaction.validatePartitionKey: the entity's value at the first
primary-key column must strictly equal the transaction's partition-key
value (the first entry of the partition key, read under that same column
name). An entity metadata with no primary column is rejected first. -/
def validatePartitionKey (tx : TransactionState) (md : EntityMetadata)
    (entity : List (String × JSValue)) : Option TxError :=
  match md.primaryColumns with
  | [] => some TxError.noPrimaryKeyColumn
  | firstPrimaryColumn :: _ =>
    let entityPartitionValue := lookupVal entity firstPrimaryColumn.propertyName
    let transactionPartitionValue :=
      match tx.partitionKey with
      | [] => none
      | kv :: _ => if kv.fst == firstPrimaryColumn.propertyName then some kv.snd else none
    if entityPartitionValue = transactionPartitionValue then none
    else some (TxError.partitionMismatch entityPartitionValue transactionPartitionValue)

/-- EntityManager.convertPrimaryKeysToTablestore with allowPartial =
false: every primary column must be bound, a missing one throws; bound
columns are emitted in schema order with converted values. -/
def convertPrimaryKeysStrict (cols : List ColumnMetadata)
    (primaryKeys : List (String × JSValue)) : Except TxError (List (String × CellValue)) :=
  match cols with
  | [] => Except.ok []
  | c :: rest =>
    match lookupVal primaryKeys c.propertyName with
    | none => Except.error (TxError.keyError c.propertyName)
    | some v =>
      (convertPrimaryKeysStrict rest primaryKeys).map
        (fun tail => (c.propertyName, convertValueToTablestoreQB v) :: tail)

/-- EntityManager.convertEntityToTablestore, primary-key part: bound
primary columns with converted values, missing ones skipped. -/
def convertEntityToTablestorePK (md : EntityMetadata)
    (entity : List (String × JSValue)) : List (String × CellValue) :=
  md.primaryColumns.filterMap (fun column =>
    (lookupVal entity column.propertyName).map
      (fun v => (column.propertyName, convertValueToTablestoreQB v)))

/-- EntityManager.convertEntityToTablestore, attribute part: non-primary
columns with a bound value, converted. -/
def convertEntityToTablestoreAttrs (md : EntityMetadata)
    (entity : List (String × JSValue)) : List (String × CellValue) :=
  md.columns.filterMap (fun column =>
    if column.isPrimary then none
    else (lookupVal entity column.propertyName).map
      (fun v => (column.propertyName, convertValueToTablestoreQB v)))

/-- Outcome of one coordinator operation: the transaction state after
it, the network calls issued through the store client, and either
success or the error thrown. -/
def TxOutcome : Type := TransactionState × List ClientCall × Except TxError Unit

/-- Transaction.save: lazily check liveness (ensureActive), validate the
entity's partition key, then issue putRow tagged with the transaction
id. The modeled metadata carries no special columns, under which the
source's processSpecialColumnsOnInsert leaves the entity unchanged. -/
def Transaction.save (tx : TransactionState) (now : Int) (md : EntityMetadata)
    (entity : List (String × JSValue)) : TxOutcome :=
  let checked := Transaction.isActive tx now
  let tx1 := checked.fst
  if checked.snd = false then (tx1, [], Except.error (TxError.stateError tx1.status))
  else
    match validatePartitionKey tx1 md entity with
    | some e => (tx1, [], Except.error e)
    | none =>
      (tx1,
        [ClientCall.putRow md.tableName (convertEntityToTablestorePK md entity)
          (convertEntityToTablestoreAttrs md entity) tx1.transactionId],
        Except.ok ())

/-- Transaction.update: liveness check, partition validation of the
primary keys, strict primary-key conversion, then updateRow tagged with
the transaction id (attribute deltas elided from the call payload). -/
def Transaction.update (tx : TransactionState) (now : Int) (md : EntityMetadata)
    (primaryKeys partialEntity : List (String × JSValue)) : TxOutcome :=
  let checked := Transaction.isActive tx now
  let tx1 := checked.fst
  if checked.snd = false then (tx1, [], Except.error (TxError.stateError tx1.status))
  else
    match validatePartitionKey tx1 md primaryKeys with
    | some e => (tx1, [], Except.error e)
    | none =>
      match convertPrimaryKeysStrict md.primaryColumns primaryKeys with
      | Except.error e => (tx1, [], Except.error e)
      | Except.ok pk =>
        (tx1, [ClientCall.updateRow md.tableName pk tx1.transactionId], Except.ok ())

/-- Transaction.delete: liveness check, partition validation, strict
primary-key conversion, then deleteRow tagged with the transaction id. -/
def Transaction.delete (tx : TransactionState) (now : Int) (md : EntityMetadata)
    (primaryKeys : List (String × JSValue)) : TxOutcome :=
  let checked := Transaction.isActive tx now
  let tx1 := checked.fst
  if checked.snd = false then (tx1, [], Except.error (TxError.stateError tx1.status))
  else
    match validatePartitionKey tx1 md primaryKeys with
    | some e => (tx1, [], Except.error e)
    | none =>
      match convertPrimaryKeysStrict md.primaryColumns primaryKeys with
      | Except.error e => (tx1, [], Except.error e)
      | Except.ok pk =>
        (tx1, [ClientCall.deleteRow md.tableName pk tx1.transactionId], Except.ok ())

/-- Transaction.findOne: liveness check, strict primary-key conversion,
then getRow tagged with the transaction id. The source performs no
partition-key validation on this path. -/
def Transaction.findOne (tx : TransactionState) (now : Int) (md : EntityMetadata)
    (primaryKeys : List (String × JSValue)) : TxOutcome :=
  let checked := Transaction.isActive tx now
  let tx1 := checked.fst
  if checked.snd = false then (tx1, [], Except.error (TxError.stateError tx1.status))
  else
    match convertPrimaryKeysStrict md.primaryColumns primaryKeys with
    | Except.error e => (tx1, [], Except.error e)
    | Except.ok pk =>
      (tx1, [ClientCall.getRowTx md.tableName pk tx1.transactionId], Except.ok ())

/-- A BatchWriteOperation: a table name and the SDK request object
(opaque to the coordinator, carried as a token). -/
structure BatchWriteOperation where
  tableName : String
  request : String
deriving DecidableEq, Repr

/-- Transaction.batchWrite: liveness check; an empty operation list
returns without any call; all operations must target one table, else an
error is thrown before any call; then one batchWriteRow is issued. The
source performs no partition-key validation on this path. -/
def Transaction.batchWrite (tx : TransactionState) (now : Int)
    (operations : List BatchWriteOperation) : TxOutcome :=
  let checked := Transaction.isActive tx now
  let tx1 := checked.fst
  if checked.snd = false then (tx1, [], Except.error (TxError.stateError tx1.status))
  else if operations.isEmpty then (tx1, [], Except.ok ())
  else
    let firstTable := (operations.headD (BatchWriteOperation.mk "" "")).tableName
    if operations.all (fun op => op.tableName == firstTable) then
      (tx1,
        [ClientCall.batchWriteRow firstTable (operations.map (fun op => op.request))
          tx1.transactionId],
        Except.ok ())
    else (tx1, [], Except.error TxError.mixedTables)

/-- Transaction.commit: liveness check, then commitTransaction; on
client success the status becomes COMMITTED, on client failure the
status becomes ABORTED and the error is re-raised. clientOk stands for
whether the store call succeeds. -/
def Transaction.commit (tx : TransactionState) (now : Int) (clientOk : Bool) : TxOutcome :=
  let checked := Transaction.isActive tx now
  let tx1 := checked.fst
  if checked.snd = false then (tx1, [], Except.error (TxError.stateError tx1.status))
  else if clientOk then
    ({ tx1 with status := TransactionStatus.committed },
      [ClientCall.commitTransaction tx1.transactionId], Except.ok ())
  else
    ({ tx1 with status := TransactionStatus.aborted },
      [ClientCall.commitTransaction tx1.transactionId], Except.error TxError.clientError)

/-- Transaction.rollback: on a non-ACTIVE status it returns silently
with nothing issued; otherwise abortTransaction is issued and — in a
finally block, so on client success and failure alike — the status
becomes ABORTED, a client failure still propagating. -/
def Transaction.rollback (tx : TransactionState) (clientOk : Bool) : TxOutcome :=
  if tx.status ≠ TransactionStatus.active then (tx, [], Except.ok ())
  else if clientOk then
    ({ tx with status := TransactionStatus.aborted },
      [ClientCall.abortTransaction tx.transactionId], Except.ok ())
  else
    ({ tx with status := TransactionStatus.aborted },
      [ClientCall.abortTransaction tx.transactionId], Except.error TxError.clientError)

/-- Errors of the filter expression builder (FilterValidationError in
the spec's taxonomy; the source throws plain Error values). -/
inductive FilterError where
  | unknownField (fieldName : String)
  | emptyAnd
  | emptyOr
deriving DecidableEq, Repr

/-- FilterFactory.findColumnMetadata: first column whose propertyName
matches. -/
def findColumnMetadata (md : EntityMetadata) (fieldName : String) : Option ColumnMetadata :=
  md.columns.find? (fun col => col.propertyName == fieldName)

/-- FilterFactory.convertValueToTablestore: integral numbers become
Tablestore.Long, other values pass through (the Date branch, which the
claims never exercise, is not modeled). -/
def convertValueToTablestoreFF (value : JSValue) : CellValue :=
  match value with
  | JSValue.vInt n => CellValue.long n
  | v => CellValue.raw v

/-- FilterFactory.createSingleCondition: the field must exist in the
entity's columns, else a validation error; then a SingleColumnCondition
is built with the converted value and the option defaults passIfMissing
and latestVersionOnly (both true when unspecified). The source's
post-conversion null check cannot fire for the modeled value types. -/
def createSingleCondition (md : EntityMetadata) (field : String) (value : JSValue)
    (comparator : ComparatorType) (passIfMissing latestVersionOnly : Bool) :
    Except FilterError Filter :=
  match findColumnMetadata md field with
  | none => Except.error (FilterError.unknownField field)
  | some _ =>
    Except.ok (Filter.single field (convertValueToTablestoreFF value) comparator
      passIfMissing latestVersionOnly)

/-- FilterFactory.equals with default options. -/
def FilterFactory.equals (md : EntityMetadata) (field : String) (value : JSValue) :
    Except FilterError Filter :=
  createSingleCondition md field value ComparatorType.equal true true

/-- FilterFactory.and: at least one condition is required, else a
validation error; otherwise an AND CompositeCondition of the children. -/
def FilterFactory.and (conditions : List Filter) : Except FilterError Filter :=
  if conditions.isEmpty then Except.error FilterError.emptyAnd
  else Except.ok (Filter.composite LogicalOperator.logicalAnd conditions)

/-- FilterFactory.or: at least one condition is required, else a
validation error; otherwise an OR CompositeCondition of the children. -/
def FilterFactory.or (conditions : List Filter) : Except FilterError Filter :=
  if conditions.isEmpty then Except.error FilterError.emptyOr
  else Except.ok (Filter.composite LogicalOperator.logicalOr conditions)

/-- FilterFactory.not: a NOT CompositeCondition wrapping exactly one
child. -/
def FilterFactory.not (condition : Filter) : Filter :=
  Filter.composite LogicalOperator.logicalNot [condition]

/-- A JSON value as JSON.parse returns it and JSON.stringify consumes
it. Numeric literals are modeled as integers: the cursor payloads this
repository produces hold strings and integral numbers. -/
inductive Json where
  | null
  | bool (b : Bool)
  | num (n : Int)
  | str (s : String)
  | arr (items : List Json)
  | obj (fields : List (String × Json))
deriving Repr

/-- Whether a JSON value is a scalar (a flat partial key binds names to
scalars only). -/
def Json.isScalar : Json → Bool
  | Json.null => true
  | Json.bool _ => true
  | Json.num _ => true
  | Json.str _ => true
  | Json.arr _ => false
  | Json.obj _ => false

/-- Hexadecimal digit character for a value below 16 (lowercase, the
form JSON.stringify uses in control-character escapes). -/
def hexDigitC (n : Nat) : Char :=
  if n < 10 then Char.ofNat (48 + n) else Char.ofNat (97 + (n - 10))

/-- Value of a hexadecimal digit character, none for other characters. -/
def hexVal (c : Char) : Option Nat :=
  let v := c.toNat
  if 48 ≤ v ∧ v ≤ 57 then some (v - 48)
  else if 97 ≤ v ∧ v ≤ 102 then some (v - 97 + 10)
  else if 65 ≤ v ∧ v ≤ 70 then some (v - 65 + 10)
  else none

/-- JSON.stringify's escaping of one string character: quote and
backslash are backslash-escaped, the named control escapes are used for
backspace, tab, newline, form feed and carriage return, the remaining
control characters become a four-digit unicode escape, and every other
character stands for itself. -/
def escapeChar (c : Char) : List Char :=
  if c = Char.ofNat 34 then [Char.ofNat 92, Char.ofNat 34]
  else if c = Char.ofNat 92 then [Char.ofNat 92, Char.ofNat 92]
  else if c.toNat = 8 then [Char.ofNat 92, 'b']
  else if c.toNat = 9 then [Char.ofNat 92, 't']
  else if c.toNat = 10 then [Char.ofNat 92, 'n']
  else if c.toNat = 12 then [Char.ofNat 92, 'f']
  else if c.toNat = 13 then [Char.ofNat 92, 'r']
  else if c.toNat < 32 then
    [Char.ofNat 92, 'u', '0', '0', hexDigitC (c.toNat / 16), hexDigitC (c.toNat % 16)]
  else [c]

/-- escapeChar over a character list. -/
def escapeList : List Char → List Char
  | [] => []
  | c :: cs => escapeChar c ++ escapeList cs

/-- A JSON string literal: quote, escaped content, quote. -/
def quoteChars (s : String) : List Char :=
  Char.ofNat 34 :: (escapeList s.data ++ [Char.ofNat 34])

/-- Decimal digit characters of a natural number, most significant
first. -/
def natChars (n : Nat) : List Char :=
  if h : n < 10 then [Char.ofNat (48 + n)]
  else natChars (n / 10) ++ [Char.ofNat (48 + n % 10)]
termination_by n
decreasing_by exact Nat.div_lt_self (by omega) (by omega)

/-- Decimal character rendering of an integer (JSON.stringify of an
integral JS number). -/
def intChars (n : Int) : List Char :=
  if n < 0 then '-' :: natChars n.natAbs else natChars n.toNat

mutual

/-- JSON.stringify: the canonical, whitespace-free rendering. -/
def printJson : Json → List Char
  | Json.null => ['n', 'u', 'l', 'l']
  | Json.bool true => ['t', 'r', 'u', 'e']
  | Json.bool false => ['f', 'a', 'l', 's', 'e']
  | Json.num n => intChars n
  | Json.str s => quoteChars s
  | Json.arr items => '[' :: (printItems items ++ [']'])
  | Json.obj fields => '{' :: (printFields fields ++ ['}'])

/-- Comma-separated rendering of array items. -/
def printItems : List Json → List Char
  | [] => []
  | [item] => printJson item
  | item :: rest => printJson item ++ (',' :: printItems rest)

/-- Comma-separated rendering of object members. -/
def printFields : List (String × Json) → List Char
  | [] => []
  | [(key, v)] => quoteChars key ++ (':' :: printJson v)
  | (key, v) :: rest => quoteChars key ++ (':' :: printJson v) ++ (',' :: printFields rest)

end

/-- jsonStringify as a String-valued function. -/
def jsonStringify (v : Json) : String :=
  String.mk (printJson v)

/-- Unescaping of a single named escape character in a JSON string
literal. -/
def unescapeChar (c : Char) : Option Char :=
  if c = Char.ofNat 34 then some (Char.ofNat 34)
  else if c = Char.ofNat 92 then some (Char.ofNat 92)
  else if c = '/' then some '/'
  else if c = 'b' then some (Char.ofNat 8)
  else if c = 't' then some (Char.ofNat 9)
  else if c = 'n' then some (Char.ofNat 10)
  else if c = 'f' then some (Char.ofNat 12)
  else if c = 'r' then some (Char.ofNat 13)
  else none

/-- Decoding of the four hex digits of a unicode escape, after the
backslash and the u: the decoded character and the five characters the
whole escape consumed, or none when malformed. -/
def escUnicode : List Char → Option (Char × Nat)
  | h1 :: h2 :: h3 :: h4 :: _ =>
    match hexVal h1, hexVal h2, hexVal h3, hexVal h4 with
    | some a, some b, some cc, some d =>
      some (Char.ofNat (((a * 16 + b) * 16 + cc) * 16 + d), 5)
    | _, _, _, _ => none
  | _ => none

/-- Decoding of one backslash escape: the input after the backslash
gives the decoded character and how many characters the escape consumed
(one for a named escape, five for a unicode escape), or none when the
escape is malformed. -/
def escStep : List Char → Option (Char × Nat)
  | [] => none
  | e :: rest2 =>
    if e = 'u' then escUnicode rest2
    else (unescapeChar e).map (fun u => (u, 1))

/-- Body of a JSON string literal, after the opening quote: characters
up to the closing quote, with backslash escapes (named and unicode)
decoded. Returns the decoded characters and the remaining input. -/
def parseStringBody : List Char → Option (List Char × List Char)
  | [] => none
  | c :: rest =>
    if c = Char.ofNat 34 then some ([], rest)
    else if c = Char.ofNat 92 then
      match escStep rest with
      | some p => (parseStringBody (rest.drop p.snd)).map (fun q => (p.fst :: q.fst, q.snd))
      | none => none
    else (parseStringBody rest).map (fun p => (c :: p.fst, p.snd))
termination_by l => l.length
decreasing_by
  · simp only [List.length_cons, List.length_drop]
    omega
  · simp only [List.length_cons]
    omega

/-- Whether a character is a decimal digit. -/
def isDigitC (c : Char) : Bool :=
  48 ≤ c.toNat && c.toNat ≤ 57

/-- Numeric value of a list of decimal digit characters. -/
def digitsVal (ds : List Char) : Nat :=
  ds.foldl (fun a c => a * 10 + (c.toNat - 48)) 0

/-- A nonempty run of decimal digits and its value, with the remaining
input (the integer fragment of a JSON number; fraction and exponent
fragments do not occur in the payloads this repository produces and are
not modeled). -/
def parseNatNum (cs : List Char) : Option (Nat × List Char) :=
  let ds := cs.takeWhile isDigitC
  if ds.isEmpty then none else some (digitsVal ds, cs.dropWhile isDigitC)

/-- Match an exact character sequence at the head of the input. -/
def expectChars : List Char → List Char → Option (List Char)
  | [], cs => some cs
  | _ :: _, [] => none
  | e :: es, c :: cs => if c = e then expectChars es cs else none

mutual

/-- Recursive-descent JSON value parser (JSON.parse on the
whitespace-free fragment relevant here), with a nesting fuel. Returns
the value and the remaining input. -/
def parseValue : Nat → List Char → Option (Json × List Char)
  | 0, _ => none
  | Nat.succ fuel, cs =>
    match cs with
    | [] => none
    | c :: rest =>
      if c = '{' then
        if rest.isEmpty then none
        else if rest.headD ' ' = '}' then some (Json.obj [], rest.tail)
        else (parseFields fuel rest).map (fun p => (Json.obj p.fst, p.snd))
      else if c = '[' then
        if rest.isEmpty then none
        else if rest.headD ' ' = ']' then some (Json.arr [], rest.tail)
        else (parseItems fuel rest).map (fun p => (Json.arr p.fst, p.snd))
      else if c = Char.ofNat 34 then
        (parseStringBody rest).map (fun p => (Json.str (String.mk p.fst), p.snd))
      else if c = 't' then
        (expectChars ['r', 'u', 'e'] rest).map (fun r => (Json.bool true, r))
      else if c = 'f' then
        (expectChars ['a', 'l', 's', 'e'] rest).map (fun r => (Json.bool false, r))
      else if c = 'n' then
        (expectChars ['u', 'l', 'l'] rest).map (fun r => (Json.null, r))
      else if c = '-' then
        (parseNatNum rest).map (fun p => (Json.num (-(p.fst : Int)), p.snd))
      else if isDigitC c then
        (parseNatNum (c :: rest)).map (fun p => (Json.num (p.fst : Int), p.snd))
      else none

/-- Members of a JSON object after the opening brace (nonempty case):
string key, colon, value, then a comma and further members or the
closing brace. -/
def parseFields : Nat → List Char → Option (List (String × Json) × List Char)
  | 0, _ => none
  | Nat.succ fuel, cs =>
    match cs with
    | [] => none
    | c :: rest =>
      if c = Char.ofNat 34 then
        match parseStringBody rest with
        | none => none
        | some (key, rest1) =>
          match rest1 with
          | [] => none
          | c1 :: rest2 =>
            if c1 = ':' then
              match parseValue fuel rest2 with
              | none => none
              | some (v, rest3) =>
                match rest3 with
                | [] => none
                | c2 :: rest4 =>
                  if c2 = ',' then
                    (parseFields fuel rest4).map
                      (fun p => ((String.mk key, v) :: p.fst, p.snd))
                  else if c2 = '}' then some ([(String.mk key, v)], rest4)
                  else none
            else none
      else none

/-- Items of a JSON array after the opening bracket (nonempty case). -/
def parseItems : Nat → List Char → Option (List Json × List Char)
  | 0, _ => none
  | Nat.succ fuel, cs =>
    match parseValue fuel cs with
    | none => none
    | some (v, rest) =>
      match rest with
      | [] => none
      | c :: rest2 =>
        if c = ',' then (parseItems fuel rest2).map (fun p => (v :: p.fst, p.snd))
        else if c = ']' then some ([v], rest2)
        else none

end

/-- JSON.parse over a character list: the whole input must be consumed
by one value. -/
def jsonParseChars (cs : List Char) : Option Json :=
  match parseValue (cs.length + 1) cs with
  | some (v, []) => some v
  | _ => none

/-- JSON.parse. -/
def jsonParse (s : String) : Option Json :=
  jsonParseChars s.data

/-- UTF-8 encoding of one unicode scalar value. -/
def utf8EncodeChar (n : Nat) : List Nat :=
  if n < 128 then [n]
  else if n < 2048 then [192 + n / 64, 128 + n % 64]
  else if n < 65536 then [224 + n / 4096, 128 + (n / 64) % 64, 128 + n % 64]
  else [240 + n / 262144, 128 + (n / 4096) % 64, 128 + (n / 64) % 64, 128 + n % 64]

/-- UTF-8 encoding of a character list (Buffer.from(text) in Node). -/
def utf8EncodeList : List Char → List Nat
  | [] => []
  | c :: cs => utf8EncodeChar c.toNat ++ utf8EncodeList cs

/-- Whether a byte is a UTF-8 continuation byte. -/
def isCont (b : Nat) : Bool :=
  128 ≤ b && b < 192

/-- The unicode replacement character U+FFFD. -/
def replC : Char := Char.ofNat 65533

/-- Decoding step for a two-byte lead: the scalar value when the
continuation byte is well formed (an overlong encoding below 128 gives
the replacement character), the replacement character and no
consumption when it is not. Second component: continuation bytes
consumed. -/
def utf8Step2 (b : Nat) : List Nat → Char × Nat
  | b1 :: _ =>
    if isCont b1 then
      if 128 ≤ (b - 192) * 64 + (b1 - 128) then (Char.ofNat ((b - 192) * 64 + (b1 - 128)), 1)
      else (replC, 1)
    else (replC, 0)
  | [] => (replC, 0)

/-- Decoding step for a three-byte lead: overlong and surrogate-range
values give the replacement character; a truncated tail swallows the
remaining input. -/
def utf8Step3 (b : Nat) : List Nat → Char × Nat
  | b1 :: b2 :: _ =>
    if isCont b1 && isCont b2 then
      if 2048 ≤ (b - 224) * 4096 + (b1 - 128) * 64 + (b2 - 128)
          ∧ ¬(55296 ≤ (b - 224) * 4096 + (b1 - 128) * 64 + (b2 - 128)
              ∧ (b - 224) * 4096 + (b1 - 128) * 64 + (b2 - 128) < 57344) then
        (Char.ofNat ((b - 224) * 4096 + (b1 - 128) * 64 + (b2 - 128)), 2)
      else (replC, 2)
    else (replC, 0)
  | rest => (replC, rest.length)

/-- Decoding step for a four-byte lead. -/
def utf8Step4 (b : Nat) : List Nat → Char × Nat
  | b1 :: b2 :: b3 :: _ =>
    if isCont b1 && isCont b2 && isCont b3 then
      if 65536 ≤ (b - 240) * 262144 + (b1 - 128) * 4096 + (b2 - 128) * 64 + (b3 - 128)
          ∧ (b - 240) * 262144 + (b1 - 128) * 4096 + (b2 - 128) * 64 + (b3 - 128) < 1114112 then
        (Char.ofNat ((b - 240) * 262144 + (b1 - 128) * 4096 + (b2 - 128) * 64 + (b3 - 128)), 3)
      else (replC, 3)
    else (replC, 0)
  | rest => (replC, rest.length)

/-- One step of lenient UTF-8 decoding: the character decoded at a lead
byte (the replacement character for stray continuation bytes and
invalid leads) and how many further bytes the step consumed. -/
def utf8Step (b : Nat) (rest : List Nat) : Char × Nat :=
  if b < 128 then (Char.ofNat b, 0)
  else if b < 192 then (replC, 0)
  else if b < 224 then utf8Step2 b rest
  else if b < 240 then utf8Step3 b rest
  else if b < 248 then utf8Step4 b rest
  else (replC, 0)

/-- Lenient UTF-8 decoding (buffer.toString in Node): a well-formed
sequence decodes to its scalar value; malformed input yields the
replacement character and decoding continues. -/
def utf8DecodeLenient : List Nat → List Char
  | [] => []
  | b :: rest =>
    let p := utf8Step b rest
    p.fst :: utf8DecodeLenient (rest.drop p.snd)
termination_by l => l.length
decreasing_by
  simp only [List.length_cons, List.length_drop]
  omega

/-- Character of a base64 sextet value (the standard alphabet). -/
def sextetChar (n : Nat) : Char :=
  if n < 26 then Char.ofNat (65 + n)
  else if n < 52 then Char.ofNat (97 + (n - 26))
  else if n < 62 then Char.ofNat (48 + (n - 52))
  else if n = 62 then '+'
  else '/'

/-- Sextet value of a base64 alphabet character, none otherwise. -/
def sextetVal (c : Char) : Option Nat :=
  let v := c.toNat
  if 65 ≤ v ∧ v ≤ 90 then some (v - 65)
  else if 97 ≤ v ∧ v ≤ 122 then some (v - 97 + 26)
  else if 48 ≤ v ∧ v ≤ 57 then some (v - 48 + 52)
  else if c = '+' then some 62
  else if c = '/' then some 63
  else none

/-- Base64 rendering of a byte list, three bytes to four characters,
padded with one or two equals signs (buffer.toString of Node with the
base64 encoding). -/
def b64EncodeGroups : List Nat → List Char
  | [] => []
  | [b1] => [sextetChar (b1 / 4), sextetChar (b1 % 4 * 16), '=', '=']
  | [b1, b2] => [sextetChar (b1 / 4), sextetChar (b1 % 4 * 16 + b2 / 16),
      sextetChar (b2 % 16 * 4), '=']
  | b1 :: b2 :: b3 :: rest =>
    sextetChar (b1 / 4) :: sextetChar (b1 % 4 * 16 + b2 / 16) ::
      sextetChar (b2 % 16 * 4 + b3 / 64) :: sextetChar (b3 % 64) :: b64EncodeGroups rest

/-- Base64 encoding as a String. -/
def b64EncodeBytes (bs : List Nat) : String :=
  String.mk (b64EncodeGroups bs)

/-- Node's lenient base64 scanner (Buffer.from with the base64
encoding): characters outside the alphabet are skipped rather than
rejected, and the first equals sign ends the data. -/
def b64CollectSextets : List Char → List Nat
  | [] => []
  | c :: cs =>
    if c = '=' then []
    else
      match sextetVal c with
      | some v => v :: b64CollectSextets cs
      | none => b64CollectSextets cs

/-- Bytes of a sextet stream: complete groups of four sextets give three
bytes; two or three leftover sextets give one or two bytes; a single
leftover sextet is dropped. -/
def b64SextetsToBytes : List Nat → List Nat
  | s1 :: s2 :: s3 :: s4 :: rest =>
    (s1 * 4 + s2 / 16) :: (s2 % 16 * 16 + s3 / 4) :: (s3 % 4 * 64 + s4) ::
      b64SextetsToBytes rest
  | [s1, s2] => [s1 * 4 + s2 / 16]
  | [s1, s2, s3] => [s1 * 4 + s2 / 16, s2 % 16 * 16 + s3 / 4]
  | _ => []

/-- Node's lenient base64 decoding of a string to bytes. -/
def b64DecodeLenient (s : String) : List Nat :=
  b64SextetsToBytes (b64CollectSextets s.data)

/-- Strict syntactic validity of a base64 encoding: groups of four
alphabet characters, the last group optionally padded ([c, c, c, =] or
[c, c, =, =]); anything else — wrong length included — is invalid. -/
def isB64Char (c : Char) : Bool :=
  (sextetVal c).isSome

/-- Group-wise strict base64 shape check. -/
def b64StrictGroups : List Char → Bool
  | [] => true
  | [c1, c2, c3, c4] =>
    isB64Char c1 && isB64Char c2 &&
      ((isB64Char c3 && (isB64Char c4 || c4 = '=')) || (c3 = '=' && c4 = '='))
  | c1 :: c2 :: c3 :: c4 :: rest =>
    isB64Char c1 && isB64Char c2 && isB64Char c3 && isB64Char c4 && b64StrictGroups rest
  | _ => false

/-- Whether a string is a strictly valid base64 encoding. -/
def isValidBase64 (s : String) : Bool :=
  b64StrictGroups s.data

/-- Error thrown by PaginationUtils.decodeCursor (CursorDecodeError in
the spec's taxonomy). -/
inductive CursorError where
  | decodeFailed
deriving DecidableEq, Repr

/-- PaginationUtils.encodeCursor: Buffer.from(JSON.stringify(primaryKeys))
rendered as base64. -/
def encodeCursor (primaryKeys : List (String × Json)) : String :=
  b64EncodeBytes (utf8EncodeList (printJson (Json.obj primaryKeys)))

/-- PaginationUtils.decodeCursor: Buffer.from(cursor, base64) decoded as
UTF-8 text, then JSON.parse; a parse failure is the error path of the
source's try/catch. Node's base64 and UTF-8 decoders never throw, so
JSON.parse is the only failure point. -/
def decodeCursor (cursor : String) : Except CursorError Json :=
  match jsonParseChars (utf8DecodeLenient (b64DecodeLenient cursor)) with
  | some v => Except.ok v
  | none => Except.error CursorError.decodeFailed

/-- Whether the head of the input, if any, is not a decimal digit (the
boundary condition under which a printed number is parsed back whole). -/
def headNotDigit (cs : List Char) : Bool :=
  match cs with
  | [] => true
  | c :: _ => !isDigitC c

/-- Example metadata: a three-column primary key a, b, c. -/
def mdABC : EntityMetadata :=
  EntityMetadata.mk "t"
    [ColumnMetadata.mk "a" true, ColumnMetadata.mk "b" true, ColumnMetadata.mk "c" true]
    [ColumnMetadata.mk "a" true, ColumnMetadata.mk "b" true, ColumnMetadata.mk "c" true]

/-- Example predicate binding a and c but not b. -/
def predAC : List (String × JSValue) :=
  [("a", JSValue.vStr "x"), ("c", JSValue.vStr "z")]

/-- Example metadata: primary key (category, id). -/
def mdCat : EntityMetadata :=
  EntityMetadata.mk "products"
    [ColumnMetadata.mk "category" true, ColumnMetadata.mk "id" true]
    [ColumnMetadata.mk "category" true, ColumnMetadata.mk "id" true]

/-- Example predicate binding the first primary column only. -/
def predCat : List (String × JSValue) :=
  [("category", JSValue.vStr "electronics")]

/-- Example metadata: primary key (uid, id) plus an attribute column. -/
def mdUsers : EntityMetadata :=
  EntityMetadata.mk "users" [ColumnMetadata.mk "uid" true, ColumnMetadata.mk "id" true]
    [ColumnMetadata.mk "uid" true, ColumnMetadata.mk "id" true,
      ColumnMetadata.mk "name" false]

/-- Example transaction bound to partition key P1, 60 s timeout. -/
def txP1 : TransactionState :=
  TransactionState.mk "users" [("uid", JSValue.vStr "P1")] "txid-1" 0 60000
    TransactionStatus.active

/-- Example transaction with a 1 s timeout, still marked ACTIVE. -/
def txShort : TransactionState :=
  TransactionState.mk "users" [("uid", JSValue.vStr "P1")] "txid-2" 0 1000
    TransactionStatus.active

/-- Example primary key whose partition component P2 differs from the
transaction txP1's P1. -/
def keysP2 : List (String × JSValue) :=
  [("uid", JSValue.vStr "P2"), ("id", JSValue.vStr "42")]

/-- Example builder state with a full primary-key predicate and a
column filter attached. -/
def stExactUsers : QueryBuilderState :=
  QueryBuilderState.mk [] [("uid", JSValue.vStr "u1"), ("id", JSValue.vStr "1")] [] none none
    none (some (Filter.single "name" (CellValue.raw (JSValue.vStr "x"))
      ComparatorType.equal true true))

/-- Example builder state with a partial predicate and no limit set. -/
def stRangeUsers : QueryBuilderState :=
  QueryBuilderState.mk [] [("uid", JSValue.vStr "u1")] [] none none none none

/-- Example cursor payload. -/
def cursorKey0 : List (String × Json) :=
  [("category", Json.str "electronics"), ("id", Json.num 7)]

/-- Boundary entry at one index: the completion treats each primary
column by its own lookup, independent of the other columns. -/
theorem autoComplete_getD (md : EntityMetadata) (pred : List (String × JSValue))
    (isStart : Bool) (dir : OrderDirection) (i : Nat) (h : i < md.primaryColumns.length) :
    (autoCompletePartialPrimaryKey md pred isStart dir).getD i dfltCell
      = (match lookupVal pred (pkName md i) with
         | some v => (pkName md i, convertValueToTablestoreQB v)
         | none =>
           if isStart then
             (pkName md i, if dir = OrderDirection.asc then CellValue.infMin else CellValue.infMax)
           else
             (pkName md i, if dir = OrderDirection.asc then CellValue.infMax else CellValue.infMin)) := by
  rw [autoCompletePartialPrimaryKey]
  have hm : i < (md.primaryColumns.map (fun column =>
      match lookupVal pred column.propertyName with
      | some value => (column.propertyName, convertValueToTablestoreQB value)
      | none =>
        if isStart then
          (column.propertyName,
            if dir = OrderDirection.asc then CellValue.infMin else CellValue.infMax)
        else
          (column.propertyName,
            if dir = OrderDirection.asc then CellValue.infMax else CellValue.infMin))).length := by
    simpa using h
  rw [List.getD_eq_getElem _ _ hm, List.getElem_map]
  rw [pkName, List.getD_eq_getElem _ _ h]

/-- C1: for a primary-key schema and a predicate binding exactly the
first m columns (column m unbound), the computed range-scan boundary
carries the minus-infinity sentinel at position m for the ASC start
boundary and the plus-infinity sentinel there for the DESC start
boundary, the end boundary carries the opposite sentinel at position m
in each case, and every bound column appears with its exact (converted)
value at both boundaries. -/
theorem rangeScan_sentinel_positions (md : EntityMetadata) (pred : List (String × JSValue))
    (m : Nat) (vs : Nat → JSValue)
    (hm : m < md.primaryColumns.length)
    (hunbound : lookupVal pred (pkName md m) = none)
    (hbound : ∀ i, i < m → lookupVal pred (pkName md i) = some (vs i)) :
    (autoCompletePartialPrimaryKey md pred true OrderDirection.asc).getD m dfltCell
        = (pkName md m, CellValue.infMin)
  ∧ (autoCompletePartialPrimaryKey md pred true OrderDirection.desc).getD m dfltCell
        = (pkName md m, CellValue.infMax)
  ∧ (autoCompletePartialPrimaryKey md pred false OrderDirection.asc).getD m dfltCell
        = (pkName md m, CellValue.infMax)
  ∧ (autoCompletePartialPrimaryKey md pred false OrderDirection.desc).getD m dfltCell
        = (pkName md m, CellValue.infMin)
  ∧ (∀ i, i < m → ∀ (isStart : Bool) (dir : OrderDirection),
      (autoCompletePartialPrimaryKey md pred isStart dir).getD i dfltCell
        = (pkName md i, convertValueToTablestoreQB (vs i))) := by
  refine ⟨?_, ?_, ?_, ?_, ?_⟩
  · rw [autoComplete_getD md pred true OrderDirection.asc m hm, hunbound]
    rfl
  · rw [autoComplete_getD md pred true OrderDirection.desc m hm, hunbound]
    rfl
  · rw [autoComplete_getD md pred false OrderDirection.asc m hm, hunbound]
    rfl
  · rw [autoComplete_getD md pred false OrderDirection.desc m hm, hunbound]
    rfl
  · intro i hi isStart dir
    rw [autoComplete_getD md pred isStart dir i (by omega), hbound i hi]

/-- C1 witness: with primary key (category, id) and category bound, the
ASC start boundary holds the minus-infinity sentinel at position 1 and
the DESC start boundary the plus-infinity sentinel. -/
theorem rangeScan_sentinel_positions_witness :
    (autoCompletePartialPrimaryKey mdCat predCat true OrderDirection.asc).getD 1 dfltCell
        = ("id", CellValue.infMin)
  ∧ (autoCompletePartialPrimaryKey mdCat predCat true OrderDirection.desc).getD 1 dfltCell
        = ("id", CellValue.infMax) := by
  have h := rangeScan_sentinel_positions mdCat predCat 1 (fun _ => JSValue.vStr "electronics")
    (by decide) (by decide)
    (fun i hi => by
      have hz : i = 0 := by omega
      subst hz
      decide)
  exact ⟨h.1.trans (by decide), h.2.1.trans (by decide)⟩

/-- C2 counterexample: primary key (a, b, c) with a and c bound but b
missing — the code emits c's explicit value at position 2 of the ASC
start boundary instead of repeating the sentinel inserted at b. -/
theorem autoComplete_emits_bound_after_gap :
    autoCompletePartialPrimaryKey mdABC predAC true OrderDirection.asc
      = [("a", CellValue.raw (JSValue.vStr "x")), ("b", CellValue.infMin),
         ("c", CellValue.raw (JSValue.vStr "z"))]
  ∧ (autoCompletePartialPrimaryKey mdABC predAC true OrderDirection.asc).getD 2 dfltCell
      ≠ ("c", CellValue.infMin) := by
  constructor
  · rfl
  · decide

/-- C2 amended: each column of the boundary is completed independently.
A column bound in the predicate is emitted with its exact converted
value at every boundary — including columns after the first missing one
— and each unbound column receives the isStart/direction-appropriate
sentinel, whatever the other columns bind. -/
theorem autoComplete_columnwise (md : EntityMetadata) (pred : List (String × JSValue))
    (i : Nat) (h : i < md.primaryColumns.length) :
    (∀ v, lookupVal pred (pkName md i) = some v →
      ∀ (isStart : Bool) (dir : OrderDirection),
        (autoCompletePartialPrimaryKey md pred isStart dir).getD i dfltCell
          = (pkName md i, convertValueToTablestoreQB v))
  ∧ (lookupVal pred (pkName md i) = none →
        (autoCompletePartialPrimaryKey md pred true OrderDirection.asc).getD i dfltCell
            = (pkName md i, CellValue.infMin)
      ∧ (autoCompletePartialPrimaryKey md pred true OrderDirection.desc).getD i dfltCell
            = (pkName md i, CellValue.infMax)
      ∧ (autoCompletePartialPrimaryKey md pred false OrderDirection.asc).getD i dfltCell
            = (pkName md i, CellValue.infMax)
      ∧ (autoCompletePartialPrimaryKey md pred false OrderDirection.desc).getD i dfltCell
            = (pkName md i, CellValue.infMin)) := by
  constructor
  · intro v hv isStart dir
    rw [autoComplete_getD md pred isStart dir i h, hv]
  · intro hnone
    refine ⟨?_, ?_, ?_, ?_⟩ <;> rw [autoComplete_getD md pred _ _ i h, hnone] <;> rfl

/-- C2 amended witness: the bound column c after the gap at b is
emitted with its value. -/
theorem autoComplete_columnwise_witness :
    (autoCompletePartialPrimaryKey mdABC predAC true OrderDirection.asc).getD 2 dfltCell
      = ("c", CellValue.raw (JSValue.vStr "z")) :=
  (((autoComplete_columnwise mdABC predAC 2 (by decide)).1 (JSValue.vStr "z") (by decide)
    true OrderDirection.asc)).trans (by decide)

/-- C6: for a full primary-key predicate, planning emits a getRow
request whose columnFilter slot is none — whatever filter tree was
attached to the builder — and the single returned row is passed through
unfiltered: the result handling is insensitive to _columnCondition. -/
theorem pointLookup_ignores_filter (md : EntityMetadata) (st : QueryBuilderState)
    (hexact : isExactPrimaryKeyQuery md st = true) :
    executeQueryRequest md st
      = TsRequest.getRow (GetRowParams.mk md.tableName
          (convertPrimaryKeysToTablestoreQB md st._where)
          (if st._select.isEmpty then none else some st._select) none none)
  ∧ (∀ (response : Option Row) (f : Filter),
      executeGetRowEntities { st with _columnCondition := some f } response
        = executeGetRowEntities { st with _columnCondition := none } response) := by
  constructor
  · rw [executeQueryRequest, if_pos hexact, executeGetRowRequest]
  · intro response f
    cases response <;> rfl

/-- C6 witness: a fully-bound predicate with a filter attached still
produces a getRow request with no columnFilter. -/
theorem pointLookup_ignores_filter_witness :
    executeQueryRequest mdUsers stExactUsers
      = TsRequest.getRow (GetRowParams.mk "users"
          [("uid", CellValue.raw (JSValue.vStr "u1")), ("id", CellValue.raw (JSValue.vStr "1"))]
          none none none) :=
  ((pointLookup_ignores_filter mdUsers stExactUsers (by decide)).1).trans rfl

/-- Range conversion leaves the stored limit untouched. -/
theorem convertRange_limit (md : EntityMetadata) (st : QueryBuilderState) :
    (convertPartialPrimaryKeyToRange md st)._limit = st._limit := by
  rw [convertPartialPrimaryKeyToRange]
  cases h1 : st._startPrimaryKey <;> cases h2 : st._endPrimaryKey <;> simp [h1, h2]

/-- C10: when no limit is set, or the limit set is 0, the planner's
range request is issued with limit 100 (JS falsy default). -/
theorem rangeScan_default_limit (md : EntityMetadata) (st : QueryBuilderState)
    (hnotexact : isExactPrimaryKeyQuery md st = false)
    (hlimit : st._limit = none ∨ st._limit = some 0) :
    ∃ params : GetRangeParams,
      executeQueryRequest md st = TsRequest.getRange params ∧ params.limit = 100 := by
  rw [executeQueryRequest, if_neg (by rw [hnotexact]; exact Bool.false_ne_true)]
  refine ⟨_, rfl, ?_⟩
  rw [executeGetRangeRequest]
  show jsOrDefault (if isPartialPrimaryKeyQuery md st = true then
      convertPartialPrimaryKeyToRange md st else st)._limit 100 = 100
  have hl : (if isPartialPrimaryKeyQuery md st = true then
      convertPartialPrimaryKeyToRange md st else st)._limit = st._limit := by
    split_ifs with h
    · exact convertRange_limit md st
    · rfl
  rw [hl]
  rcases hlimit with h | h <;> rw [h, jsOrDefault]
  rfl

/-- C10 witness: a partial predicate with no limit yields a range
request with limit 100. -/
theorem rangeScan_default_limit_witness :
    ∃ params : GetRangeParams,
      executeQueryRequest mdUsers stRangeUsers = TsRequest.getRange params
        ∧ params.limit = 100 :=
  rangeScan_default_limit mdUsers stRangeUsers (by decide) (Or.inl rfl)

/-- Liveness check on an ACTIVE transaction whose timeout has elapsed:
the status moves to TIMEOUT and the check reports false. -/
theorem isActive_timeout (tx : TransactionState) (now : Int)
    (hactive : tx.status = TransactionStatus.active)
    (helapsed : now - tx.startTime > tx.timeout) :
    Transaction.isActive tx now = ({ tx with status := TransactionStatus.timeout }, false) := by
  rw [Transaction.isActive]
  rw [if_neg (by rw [hactive]; simp), if_pos helapsed]

/-- Liveness check on a non-ACTIVE transaction: false, state unchanged. -/
theorem isActive_inactive (tx : TransactionState) (now : Int)
    (h : tx.status ≠ TransactionStatus.active) :
    Transaction.isActive tx now = (tx, false) := by
  rw [Transaction.isActive, if_pos h]

/-- C4: an ACTIVE transaction whose timeout has elapsed transitions to
TIMEOUT on the next liveness check or operation attempt — the operation
is rejected with a state error and issues no call — and on any
transaction whose status is no longer ACTIVE every read/write operation
(save, update, delete, findOne, batchWrite) fails with a state error
without a call and without changing the state. -/
theorem transaction_timeout_lazy (tx : TransactionState) (now : Int) (md : EntityMetadata)
    (entity pk part : List (String × JSValue)) (ops : List BatchWriteOperation)
    (hactive : tx.status = TransactionStatus.active)
    (helapsed : now - tx.startTime > tx.timeout) :
    Transaction.isActive tx now = ({ tx with status := TransactionStatus.timeout }, false)
  ∧ Transaction.save tx now md entity
      = ({ tx with status := TransactionStatus.timeout }, [],
          Except.error (TxError.stateError TransactionStatus.timeout))
  ∧ Transaction.update tx now md pk part
      = ({ tx with status := TransactionStatus.timeout }, [],
          Except.error (TxError.stateError TransactionStatus.timeout))
  ∧ Transaction.delete tx now md pk
      = ({ tx with status := TransactionStatus.timeout }, [],
          Except.error (TxError.stateError TransactionStatus.timeout))
  ∧ Transaction.findOne tx now md pk
      = ({ tx with status := TransactionStatus.timeout }, [],
          Except.error (TxError.stateError TransactionStatus.timeout))
  ∧ Transaction.batchWrite tx now ops
      = ({ tx with status := TransactionStatus.timeout }, [],
          Except.error (TxError.stateError TransactionStatus.timeout))
  ∧ (∀ (tx2 : TransactionState) (now2 : Int), tx2.status ≠ TransactionStatus.active →
        Transaction.save tx2 now2 md entity
            = (tx2, [], Except.error (TxError.stateError tx2.status))
      ∧ Transaction.update tx2 now2 md pk part
            = (tx2, [], Except.error (TxError.stateError tx2.status))
      ∧ Transaction.delete tx2 now2 md pk
            = (tx2, [], Except.error (TxError.stateError tx2.status))
      ∧ Transaction.findOne tx2 now2 md pk
            = (tx2, [], Except.error (TxError.stateError tx2.status))
      ∧ Transaction.batchWrite tx2 now2 ops
            = (tx2, [], Except.error (TxError.stateError tx2.status))) := by
  have hto := isActive_timeout tx now hactive helapsed
  refine ⟨hto, ?_, ?_, ?_, ?_, ?_, ?_⟩
  · rw [Transaction.save, hto]
    rfl
  · rw [Transaction.update, hto]
    rfl
  · rw [Transaction.delete, hto]
    rfl
  · rw [Transaction.findOne, hto]
    rfl
  · rw [Transaction.batchWrite, hto]
    rfl
  · intro tx2 now2 h2
    have hin := isActive_inactive tx2 now2 h2
    refine ⟨?_, ?_, ?_, ?_, ?_⟩
    · rw [Transaction.save, hin]
      rfl
    · rw [Transaction.update, hin]
      rfl
    · rw [Transaction.delete, hin]
      rfl
    · rw [Transaction.findOne, hin]
      rfl
    · rw [Transaction.batchWrite, hin]
      rfl

/-- C4 witness: a 1 s transaction checked at t = 5000 ms times out and
its save is rejected. -/
theorem transaction_timeout_lazy_witness :
    Transaction.isActive txShort 5000
        = ({ txShort with status := TransactionStatus.timeout }, false)
  ∧ Transaction.save txShort 5000 mdUsers keysP2
      = ({ txShort with status := TransactionStatus.timeout }, [],
          Except.error (TxError.stateError TransactionStatus.timeout)) := by
  have h := transaction_timeout_lazy txShort 5000 mdUsers keysP2 keysP2 keysP2 []
    (by decide) (by decide)
  exact ⟨h.1, h.2.1⟩

/-- C5 amended: on a live transaction, save, update and delete validate
the partition key and, on mismatch, fail with the mismatch error before
issuing any client call; findOne performs no partition-key check and
delegates a getRow call even for a mismatched key (batchWrite likewise
performs no per-key check — its operations carry opaque request
payloads the coordinator never inspects). -/
theorem tx_partition_check_writes_only (tx : TransactionState) (now : Int)
    (md : EntityMetadata) (keys part : List (String × JSValue)) (e : TxError)
    (hok : (Transaction.isActive tx now).snd = true)
    (hmismatch : validatePartitionKey (Transaction.isActive tx now).fst md keys = some e) :
    Transaction.save tx now md keys
        = ((Transaction.isActive tx now).fst, [], Except.error e)
  ∧ Transaction.update tx now md keys part
        = ((Transaction.isActive tx now).fst, [], Except.error e)
  ∧ Transaction.delete tx now md keys
        = ((Transaction.isActive tx now).fst, [], Except.error e)
  ∧ (∀ pkd, convertPrimaryKeysStrict md.primaryColumns keys = Except.ok pkd →
      Transaction.findOne tx now md keys
        = ((Transaction.isActive tx now).fst,
            [ClientCall.getRowTx md.tableName pkd
              (Transaction.isActive tx now).fst.transactionId],
            Except.ok ())) := by
  have hnotfalse : ((Transaction.isActive tx now).snd = false) = False := by
    rw [hok]
    simp
  refine ⟨?_, ?_, ?_, ?_⟩
  · rw [Transaction.save]
    simp only [hnotfalse, if_false, hmismatch]
  · rw [Transaction.update]
    simp only [hnotfalse, if_false, hmismatch]
  · rw [Transaction.delete]
    simp only [hnotfalse, if_false, hmismatch]
  · intro pkd hconv
    rw [Transaction.findOne]
    simp only [hnotfalse, if_false, hconv]

/-- C5 counterexample: findOne on a transaction bound to P1, given a
key whose partition component is P2, does not fail with the mismatch
error — the mismatch is real, yet the operation delegates a getRow
client call and succeeds. -/
theorem findOne_skips_partition_check :
    validatePartitionKey txP1 mdUsers keysP2
        = some (TxError.partitionMismatch (some (JSValue.vStr "P2")) (some (JSValue.vStr "P1")))
  ∧ Transaction.findOne txP1 5 mdUsers keysP2
        = (txP1,
            [ClientCall.getRowTx "users"
              [("uid", CellValue.raw (JSValue.vStr "P2")),
                ("id", CellValue.raw (JSValue.vStr "42"))]
              "txid-1"],
            Except.ok ()) := by
  constructor
  · rfl
  · rfl

/-- C5 amended witness: save with the mismatched key fails with the
mismatch error and issues no call. -/
theorem tx_partition_check_writes_only_witness :
    Transaction.save txP1 5 mdUsers keysP2
      = (txP1, [],
          Except.error (TxError.partitionMismatch (some (JSValue.vStr "P2"))
            (some (JSValue.vStr "P1")))) := by
  have h := tx_partition_check_writes_only txP1 5 mdUsers keysP2 keysP2
    (TxError.partitionMismatch (some (JSValue.vStr "P2")) (some (JSValue.vStr "P1")))
    (by decide) (by decide)
  exact h.1.trans rfl

/-- C7: on a live ACTIVE transaction, a commit whose store call fails
moves the status to ABORTED and re-raises the client error; a rollback
of an ACTIVE transaction leaves the status ABORTED whether the abort
call succeeds or fails, issuing the abort call; and a rollback of a
non-ACTIVE transaction is a silent no-op that issues nothing and leaves
the state unchanged. -/
theorem commit_rollback_terminal (tx : TransactionState) (now : Int)
    (hactive : tx.status = TransactionStatus.active)
    (hlive : ¬(now - tx.startTime > tx.timeout)) :
    Transaction.commit tx now false
        = ({ tx with status := TransactionStatus.aborted },
            [ClientCall.commitTransaction tx.transactionId], Except.error TxError.clientError)
  ∧ (∀ clientOk : Bool,
        (Transaction.rollback tx clientOk).fst.status = TransactionStatus.aborted
      ∧ (Transaction.rollback tx clientOk).snd.fst
          = [ClientCall.abortTransaction tx.transactionId])
  ∧ (∀ tx2 : TransactionState, tx2.status ≠ TransactionStatus.active →
        ∀ clientOk : Bool, Transaction.rollback tx2 clientOk = (tx2, [], Except.ok ())) := by
  have hok : Transaction.isActive tx now = (tx, true) := by
    rw [Transaction.isActive]
    rw [if_neg (by rw [hactive]; simp), if_neg hlive]
  refine ⟨?_, ?_, ?_⟩
  · rw [Transaction.commit, hok]
    rfl
  · intro clientOk
    rw [Transaction.rollback, if_neg (by rw [hactive]; simp)]
    cases clientOk <;> exact ⟨rfl, rfl⟩
  · intro tx2 h2 clientOk
    rw [Transaction.rollback, if_pos h2]

/-- C7 witness: a failing commit of the live transaction txP1 aborts
it and re-raises, and rollback of a committed transaction is a no-op. -/
theorem commit_rollback_terminal_witness :
    Transaction.commit txP1 5 false
        = ({ txP1 with status := TransactionStatus.aborted },
            [ClientCall.commitTransaction "txid-1"], Except.error TxError.clientError)
  ∧ Transaction.rollback { txP1 with status := TransactionStatus.committed } false
        = ({ txP1 with status := TransactionStatus.committed }, [], Except.ok ()) := by
  have h := commit_rollback_terminal txP1 5 (by decide) (by decide)
  exact ⟨h.1.trans rfl, h.2.2 _ (by decide) false⟩

/-- C8: filter construction validates eagerly — a comparator leaf on a
field absent from the schema fails with the unknown-field validation
error (both through the generic constructor and through equals), and
AND or OR applied to zero conditions fails with the corresponding
empty-composite validation error, all before any network request
exists. -/
theorem filter_validation_eager (md : EntityMetadata) (field : String) (value : JSValue)
    (cmp : ComparatorType) (p l : Bool)
    (hunknown : findColumnMetadata md field = none) :
    createSingleCondition md field value cmp p l
        = Except.error (FilterError.unknownField field)
  ∧ FilterFactory.equals md field value = Except.error (FilterError.unknownField field)
  ∧ FilterFactory.and [] = Except.error FilterError.emptyAnd
  ∧ FilterFactory.or [] = Except.error FilterError.emptyOr := by
  refine ⟨?_, ?_, rfl, rfl⟩
  · rw [createSingleCondition, hunknown]
  · rw [FilterFactory.equals, createSingleCondition, hunknown]

/-- C8 witness: equals on the unknown field salary fails, as do empty
AND and OR. -/
theorem filter_validation_eager_witness :
    FilterFactory.equals mdUsers "salary" (JSValue.vInt 5)
        = Except.error (FilterError.unknownField "salary")
  ∧ FilterFactory.and [] = Except.error FilterError.emptyAnd := by
  have h := filter_validation_eager mdUsers "salary" (JSValue.vInt 5) ComparatorType.equal
    true true (by decide)
  exact ⟨h.2.1, h.2.2.1⟩

theorem sextet_inv_fin : ∀ i : Fin 64, sextetVal (sextetChar i.val) = some i.val ∧ (sextetChar i.val = '=') = False := by decide

theorem collect_cons_alpha (x : Nat) (hx : x < 64) (cs : List Char) :
    b64CollectSextets (sextetChar x :: cs) = x :: b64CollectSextets cs := by
  have h := sextet_inv_fin ⟨x, hx⟩
  simp only [b64CollectSextets, h.1, h.2, if_false]

theorem collect_pad (cs : List Char) : b64CollectSextets ('=' :: cs) = [] := by
  simp [b64CollectSextets]

/-- Base64 decoding inverts encoding on byte lists. -/
theorem b64_roundtrip_chars (bs : List Nat) (h : ∀ b ∈ bs, b < 256) :
    b64SextetsToBytes (b64CollectSextets (b64EncodeGroups bs)) = bs := by
  induction bs using b64EncodeGroups.induct with
  | case1 => rfl
  | case2 b1 =>
    have hb1 : b1 < 256 := h b1 (by simp)
    rw [b64EncodeGroups]
    rw [collect_cons_alpha _ (by omega), collect_cons_alpha _ (by omega), collect_pad]
    show b64SextetsToBytes [b1 / 4, b1 % 4 * 16] = [b1]
    rw [b64SextetsToBytes]
    congr 1
    omega
  | case3 b1 b2 =>
    have hb1 : b1 < 256 := h b1 (by simp)
    have hb2 : b2 < 256 := h b2 (by simp)
    rw [b64EncodeGroups]
    rw [collect_cons_alpha _ (by omega), collect_cons_alpha _ (by omega),
      collect_cons_alpha _ (by omega), collect_pad]
    show b64SextetsToBytes [b1 / 4, b1 % 4 * 16 + b2 / 16, b2 % 16 * 4] = [b1, b2]
    rw [b64SextetsToBytes]
    congr 1
    · omega
    congr 1
    omega
  | case4 b1 b2 b3 rest ih =>
    have hb1 : b1 < 256 := h b1 (by simp)
    have hb2 : b2 < 256 := h b2 (by simp)
    have hb3 : b3 < 256 := h b3 (by simp)
    have hr : ∀ b ∈ rest, b < 256 := fun b hb => h b (by simp [hb])
    rw [b64EncodeGroups]
    rw [collect_cons_alpha _ (by omega), collect_cons_alpha _ (by omega),
      collect_cons_alpha _ (by omega), collect_cons_alpha _ (by omega)]
    rw [b64SextetsToBytes]
    rw [ih hr]
    congr 1
    · omega
    congr 1
    · omega
    congr 1
    omega

theorem char_valid_nat (c : Char) : Nat.isValidChar c.toNat := c.valid

theorem utf8EncodeChar_lt256 (n : Nat) (h : n < 1114112) : ∀ b ∈ utf8EncodeChar n, b < 256 := by
  unfold utf8EncodeChar
  split_ifs with h1 h2 h3 <;> intro b hb <;> simp at hb <;> omega

theorem utf8EncodeList_lt256 (s : List Char) : ∀ b ∈ utf8EncodeList s, b < 256 := by
  induction s with
  | nil => intro b hb; simp [utf8EncodeList] at hb
  | cons c cs ih =>
    intro b hb
    rw [utf8EncodeList, List.mem_append] at hb
    rcases hb with hb | hb
    · have hv := char_valid_nat c
      have hlt : c.toNat < 1114112 := by rcases hv with h | h <;> omega
      exact utf8EncodeChar_lt256 _ hlt b hb
    · exact ih b hb

theorem utf8DecodeLenient_cons (b : Nat) (rest : List Nat) :
    utf8DecodeLenient (b :: rest)
      = (utf8Step b rest).fst :: utf8DecodeLenient (rest.drop (utf8Step b rest).snd) := by
  rw [utf8DecodeLenient]

theorem utf8_decode_encode_char (c : Char) (rest : List Nat) :
    utf8DecodeLenient (utf8EncodeChar c.toNat ++ rest) = c :: utf8DecodeLenient rest := by
  have hv := char_valid_nat c
  have hofn : Char.ofNat c.toNat = c := Char.ofNat_toNat c
  have hlt : c.toNat < 1114112 := by rcases hv with h | h <;> omega
  have hns : c.toNat < 55296 ∨ 57343 < c.toNat := by rcases hv with h | h <;> omega
  set n := c.toNat with hn
  by_cases h1 : n < 128
  · rw [utf8EncodeChar, if_pos h1]
    show utf8DecodeLenient (n :: rest) = c :: utf8DecodeLenient rest
    rw [utf8DecodeLenient_cons]
    rw [utf8Step, if_pos h1]
    rw [hofn]
    rfl
  · by_cases h2 : n < 2048
    · rw [utf8EncodeChar, if_neg h1, if_pos h2]
      show utf8DecodeLenient ((192 + n / 64) :: ((128 + n % 64) :: rest)) = c :: utf8DecodeLenient rest
      rw [utf8DecodeLenient_cons]
      have hc : isCont (128 + n % 64) = true := by simp [isCont]; omega
      rw [utf8Step, if_neg (by omega), if_neg (by omega), if_pos (by omega)]
      rw [utf8Step2, hc]
      rw [if_pos rfl, if_pos (by omega)]
      have heq : (192 + n / 64 - 192) * 64 + (128 + n % 64 - 128) = n := by omega
      rw [heq, hofn]
      rfl
    · by_cases h3 : n < 65536
      · rw [utf8EncodeChar, if_neg h1, if_neg h2, if_pos h3]
        show utf8DecodeLenient ((224 + n / 4096) :: ((128 + n / 64 % 64) :: (128 + n % 64) :: rest))
          = c :: utf8DecodeLenient rest
        rw [utf8DecodeLenient_cons]
        have hc1 : isCont (128 + n / 64 % 64) = true := by simp [isCont]; omega
        have hc2 : isCont (128 + n % 64) = true := by simp [isCont]; omega
        rw [utf8Step, if_neg (by omega), if_neg (by omega), if_neg (by omega), if_pos (by omega)]
        rw [utf8Step3, hc1, hc2]
        rw [if_pos (by decide), if_pos (by constructor <;> omega)]
        have heq : (224 + n / 4096 - 224) * 4096 + (128 + n / 64 % 64 - 128) * 64
            + (128 + n % 64 - 128) = n := by omega
        rw [heq, hofn]
        rfl
      · rw [utf8EncodeChar, if_neg h1, if_neg h2, if_neg h3]
        show utf8DecodeLenient
            ((240 + n / 262144) :: ((128 + n / 4096 % 64) :: (128 + n / 64 % 64) :: (128 + n % 64) :: rest))
          = c :: utf8DecodeLenient rest
        rw [utf8DecodeLenient_cons]
        have hc1 : isCont (128 + n / 4096 % 64) = true := by simp [isCont]; omega
        have hc2 : isCont (128 + n / 64 % 64) = true := by simp [isCont]; omega
        have hc3 : isCont (128 + n % 64) = true := by simp [isCont]; omega
        rw [utf8Step, if_neg (by omega), if_neg (by omega), if_neg (by omega), if_neg (by omega),
          if_pos (by omega)]
        rw [utf8Step4, hc1, hc2, hc3]
        rw [if_pos (by decide), if_pos (by constructor <;> omega)]
        have heq : (240 + n / 262144 - 240) * 262144 + (128 + n / 4096 % 64 - 128) * 4096
            + (128 + n / 64 % 64 - 128) * 64 + (128 + n % 64 - 128) = n := by omega
        rw [heq, hofn]
        rfl

/-- UTF-8 decoding inverts encoding on character lists. -/
theorem utf8_decode_encode (s : List Char) :
    utf8DecodeLenient (utf8EncodeList s) = s := by
  induction s with
  | nil => rw [utf8EncodeList]; rw [utf8DecodeLenient]
  | cons c cs ih =>
    rw [utf8EncodeList, utf8_decode_encode_char, ih]

theorem hex_inv : ∀ x : Fin 16, hexVal (hexDigitC x.val) = some x.val := by decide

theorem psb_quote (rest : List Char) :
    parseStringBody (Char.ofNat 34 :: rest) = some ([], rest) := by
  rw [parseStringBody]
  rw [if_pos rfl]

theorem psb_esc_named (e u : Char) (he : e ≠ 'u') (hu : unescapeChar e = some u)
    (tail : List Char) :
    parseStringBody (Char.ofNat 92 :: e :: tail)
      = (parseStringBody tail).map (fun q => (u :: q.fst, q.snd)) := by
  rw [parseStringBody]
  rw [if_neg (by decide), if_pos rfl]
  rw [escStep, if_neg he, hu]
  rfl

theorem psb_esc_unicode (h1 h2 h3 h4 : Char) (a b c3 d : Nat)
    (hh1 : hexVal h1 = some a) (hh2 : hexVal h2 = some b)
    (hh3 : hexVal h3 = some c3) (hh4 : hexVal h4 = some d) (tail : List Char) :
    parseStringBody (Char.ofNat 92 :: 'u' :: h1 :: h2 :: h3 :: h4 :: tail)
      = (parseStringBody tail).map
          (fun q => (Char.ofNat (((a * 16 + b) * 16 + c3) * 16 + d) :: q.fst, q.snd)) := by
  rw [parseStringBody]
  rw [if_neg (by decide), if_pos rfl]
  rw [escStep, if_pos rfl]
  rw [escUnicode, hh1, hh2, hh3, hh4]
  rfl

theorem psb_plain (c : Char) (hq : c ≠ Char.ofNat 34) (hb : c ≠ Char.ofNat 92)
    (tail : List Char) :
    parseStringBody (c :: tail) = (parseStringBody tail).map (fun q => (c :: q.fst, q.snd)) := by
  rw [parseStringBody]
  rw [if_neg hq, if_neg hb]

/-- The string-literal parser inverts JSON.stringify's escaping. -/
theorem parseStringBody_escape (s : List Char) (rest : List Char) :
    parseStringBody (escapeList s ++ Char.ofNat 34 :: rest) = some (s, rest) := by
  induction s with
  | nil =>
    rw [escapeList]
    rw [List.nil_append, psb_quote]
  | cons c cs ih =>
    rw [escapeList, List.append_assoc]
    rw [escapeChar]
    split_ifs with e1 e2 e3 e4 e5 e6 e7 e8
    · subst e1
      rw [List.cons_append, List.cons_append, List.nil_append]
      rw [psb_esc_named (Char.ofNat 34) (Char.ofNat 34) (by decide) (by decide), ih]
      rfl
    · subst e2
      rw [List.cons_append, List.cons_append, List.nil_append]
      rw [psb_esc_named (Char.ofNat 92) (Char.ofNat 92) (by decide) (by decide), ih]
      rfl
    · have hc : c = Char.ofNat 8 := by
        have h := Char.ofNat_toNat c
        rw [e3] at h
        exact h.symm
      rw [List.cons_append, List.cons_append, List.nil_append]
      rw [psb_esc_named 'b' (Char.ofNat 8) (by decide) (by decide), ih, hc]
      rfl
    · have hc : c = Char.ofNat 9 := by
        have h := Char.ofNat_toNat c
        rw [e4] at h
        exact h.symm
      rw [List.cons_append, List.cons_append, List.nil_append]
      rw [psb_esc_named 't' (Char.ofNat 9) (by decide) (by decide), ih, hc]
      rfl
    · have hc : c = Char.ofNat 10 := by
        have h := Char.ofNat_toNat c
        rw [e5] at h
        exact h.symm
      rw [List.cons_append, List.cons_append, List.nil_append]
      rw [psb_esc_named 'n' (Char.ofNat 10) (by decide) (by decide), ih, hc]
      rfl
    · have hc : c = Char.ofNat 12 := by
        have h := Char.ofNat_toNat c
        rw [e6] at h
        exact h.symm
      rw [List.cons_append, List.cons_append, List.nil_append]
      rw [psb_esc_named 'f' (Char.ofNat 12) (by decide) (by decide), ih, hc]
      rfl
    · have hc : c = Char.ofNat 13 := by
        have h := Char.ofNat_toNat c
        rw [e7] at h
        exact h.symm
      rw [List.cons_append, List.cons_append, List.nil_append]
      rw [psb_esc_named 'r' (Char.ofNat 13) (by decide) (by decide), ih, hc]
      rfl
    · have h16 : c.toNat / 16 < 16 := by omega
      have h16b : c.toNat % 16 < 16 := by omega
      have hv1 := hex_inv ⟨c.toNat / 16, h16⟩
      have hv2 := hex_inv ⟨c.toNat % 16, h16b⟩
      rw [List.cons_append, List.cons_append, List.cons_append, List.cons_append,
        List.cons_append, List.cons_append, List.nil_append]
      rw [psb_esc_unicode '0' '0' _ _ 0 0 (c.toNat / 16) (c.toNat % 16)
        (by decide) (by decide) hv1 hv2]
      rw [ih]
      have heq : ((0 * 16 + 0) * 16 + c.toNat / 16) * 16 + c.toNat % 16 = c.toNat := by omega
      rw [show ((0 : Nat) * 16 + 0) * 16 + c.toNat / 16 = c.toNat / 16 from by omega]
      simp only [Option.map_some']
      rw [show c.toNat / 16 * 16 + c.toNat % 16 = c.toNat from by omega, Char.ofNat_toNat]
    · rw [List.cons_append, List.nil_append]
      rw [psb_plain c e1 e2, ih]
      rfl

theorem digit_lemmas : ∀ m : Fin 10, (Char.ofNat (48 + m.val)).toNat = 48 + m.val
    ∧ isDigitC (Char.ofNat (48 + m.val)) = true := by decide

theorem digitChar_toNat (m : Nat) (h : m < 10) : (Char.ofNat (48 + m)).toNat = 48 + m :=
  (digit_lemmas ⟨m, h⟩).1

theorem digitChar_isDigit (m : Nat) (h : m < 10) : isDigitC (Char.ofNat (48 + m)) = true :=
  (digit_lemmas ⟨m, h⟩).2

theorem natChars_digits (n : Nat) : ∀ c ∈ natChars n, isDigitC c = true := by
  induction n using Nat.strong_induction_on with
  | _ n ih =>
    rw [natChars]
    split_ifs with h
    · intro c hc
      simp only [List.mem_singleton] at hc
      subst hc
      exact digitChar_isDigit n h
    · intro c hc
      rw [List.mem_append, List.mem_singleton] at hc
      rcases hc with hc | hc
      · exact ih (n / 10) (Nat.div_lt_self (by omega) (by omega)) c hc
      · subst hc
        exact digitChar_isDigit (n % 10) (by omega)

theorem natChars_ne_nil (n : Nat) : natChars n ≠ [] := by
  rw [natChars]
  split_ifs with h
  · simp
  · simp

theorem digitsVal_natChars (n : Nat) : digitsVal (natChars n) = n := by
  induction n using Nat.strong_induction_on with
  | _ n ih =>
    rw [natChars]
    split_ifs with h
    · show digitsVal [Char.ofNat (48 + n)] = n
      rw [digitsVal]
      simp only [List.foldl_cons, List.foldl_nil]
      rw [digitChar_toNat n h]
      omega
    · rw [digitsVal, List.foldl_append]
      rw [show List.foldl (fun a c => a * 10 + (c.toNat - 48)) 0 (natChars (n / 10))
          = digitsVal (natChars (n / 10)) from rfl]
      rw [ih (n / 10) (Nat.div_lt_self (by omega) (by omega))]
      simp only [List.foldl_cons, List.foldl_nil]
      rw [digitChar_toNat (n % 10) (by omega)]
      omega

theorem takeWhile_all_append (ds rest : List Char) (hds : ∀ c ∈ ds, isDigitC c = true)
    (hrest : headNotDigit rest = true) :
    (ds ++ rest).takeWhile isDigitC = ds ∧ (ds ++ rest).dropWhile isDigitC = rest := by
  induction ds with
  | nil =>
    simp only [List.nil_append]
    cases rest with
    | nil => simp [List.takeWhile, List.dropWhile]
    | cons c cs =>
      rw [headNotDigit] at hrest
      simp only [Bool.not_eq_true'] at hrest
      constructor
      · rw [List.takeWhile_cons]
        simp [hrest]
      · rw [List.dropWhile_cons]
        simp [hrest]
  | cons d ds ih =>
    have hd : isDigitC d = true := hds d (by simp)
    have htail : ∀ c ∈ ds, isDigitC c = true := fun c hc => hds c (by simp [hc])
    obtain ⟨h1, h2⟩ := ih htail
    constructor
    · rw [List.cons_append, List.takeWhile_cons]
      simp [hd, h1]
    · rw [List.cons_append, List.dropWhile_cons]
      simp [hd, h2]

theorem parseNatNum_natChars (n : Nat) (rest : List Char) (hrest : headNotDigit rest = true) :
    parseNatNum (natChars n ++ rest) = some (n, rest) := by
  obtain ⟨h1, h2⟩ := takeWhile_all_append (natChars n) rest (natChars_digits n) hrest
  rw [parseNatNum, h1, h2]
  have hne : (natChars n).isEmpty = false := by
    cases h : natChars n with
    | nil => exact absurd h (natChars_ne_nil n)
    | cons a l => rfl
  rw [hne]
  simp only [Bool.false_eq_true, if_false]
  rw [digitsVal_natChars]

theorem expectChars_append (es rest : List Char) : expectChars es (es ++ rest) = some rest := by
  induction es with
  | nil => rw [List.nil_append, expectChars]
  | cons e es ih =>
    rw [List.cons_append, expectChars, if_pos rfl, ih]

theorem digit_not_special (c : Char) (h : isDigitC c = true) :
    c ≠ '{' ∧ c ≠ '[' ∧ c ≠ Char.ofNat 34 ∧ c ≠ 't' ∧ c ≠ 'f' ∧ c ≠ 'n' ∧ c ≠ '-' := by
  refine ⟨?_, ?_, ?_, ?_, ?_, ?_, ?_⟩ <;> rintro rfl <;> exact absurd h (by decide)

theorem parseValue_num_nonneg (n : Nat) (fuel : Nat) (rest : List Char)
    (hrest : headNotDigit rest = true) :
    parseValue (fuel + 1) (natChars n ++ rest) = some (Json.num (n : Int), rest) := by
  obtain ⟨d, ds, hds⟩ : ∃ d ds, natChars n = d :: ds := by
    cases h : natChars n with
    | nil => exact absurd h (natChars_ne_nil n)
    | cons d ds => exact ⟨d, ds, rfl⟩
  have hd : isDigitC d = true := natChars_digits n d (by rw [hds]; simp)
  obtain ⟨h1, h2, h3, h4, h5, h6, h7⟩ := digit_not_special d hd
  rw [hds, List.cons_append, parseValue]
  rw [if_neg h1, if_neg h2, if_neg h3, if_neg h4, if_neg h5, if_neg h6, if_neg h7, if_pos hd]
  rw [show d :: (ds ++ rest) = (d :: ds) ++ rest from rfl, ← hds]
  rw [parseNatNum_natChars n rest hrest]
  rfl

theorem parseValue_scalar (v : Json) (hs : v.isScalar = true) (fuel : Nat) (rest : List Char)
    (hrest : headNotDigit rest = true) :
    parseValue (fuel + 1) (printJson v ++ rest) = some (v, rest) := by
  cases v with
  | null =>
    rw [printJson]
    rw [show ['n', 'u', 'l', 'l'] ++ rest = 'n' :: (['u', 'l', 'l'] ++ rest) from rfl]
    rw [parseValue]
    rw [if_neg (by decide), if_neg (by decide), if_neg (by decide), if_neg (by decide),
      if_neg (by decide), if_pos rfl]
    rw [expectChars_append]
    rfl
  | bool b =>
    cases b with
    | true =>
      rw [printJson]
      rw [show ['t', 'r', 'u', 'e'] ++ rest = 't' :: (['r', 'u', 'e'] ++ rest) from rfl]
      rw [parseValue]
      rw [if_neg (by decide), if_neg (by decide), if_neg (by decide), if_pos rfl]
      rw [expectChars_append]
      rfl
    | false =>
      rw [printJson]
      rw [show ['f', 'a', 'l', 's', 'e'] ++ rest = 'f' :: (['a', 'l', 's', 'e'] ++ rest) from rfl]
      rw [parseValue]
      rw [if_neg (by decide), if_neg (by decide), if_neg (by decide), if_neg (by decide),
        if_pos rfl]
      rw [expectChars_append]
      rfl
  | num n =>
    rw [printJson, intChars]
    split_ifs with hneg
    · rw [List.cons_append, parseValue]
      rw [if_neg (by decide), if_neg (by decide), if_neg (by decide), if_neg (by decide),
        if_neg (by decide), if_neg (by decide), if_pos rfl]
      rw [parseNatNum_natChars n.natAbs rest hrest]
      have : -(n.natAbs : Int) = n := by omega
      rw [Option.map_some']
      rw [this]
    · rw [parseValue_num_nonneg n.toNat fuel rest hrest]
      have : (n.toNat : Int) = n := by omega
      rw [this]
  | str s =>
    rw [printJson, quoteChars]
    rw [List.cons_append, parseValue]
    rw [if_neg (by decide), if_neg (by decide), if_pos rfl]
    rw [List.append_assoc, List.cons_append, List.nil_append]
    rw [parseStringBody_escape]
    show some (Json.str (String.mk s.data), rest) = some (Json.str s, rest)
    rfl
  | arr items => exact absurd hs (by rw [Json.isScalar]; simp)
  | obj fields => exact absurd hs (by rw [Json.isScalar]; simp)

/-- The object-member parser inverts the member printer on flat
scalar-valued member lists, given fuel beyond the member count. -/
theorem parseFields_print : ∀ (fs : List (String × Json)), fs ≠ [] →
    (∀ p ∈ fs, (p.snd).isScalar = true) → ∀ (fuel : Nat), fs.length + 1 ≤ fuel →
    ∀ (rest : List Char),
    parseFields fuel (printFields fs ++ '}' :: rest) = some (fs, rest) := by
  intro fs
  induction fs with
  | nil => intro h; exact absurd rfl h
  | cons p tail ih =>
    obtain ⟨k, v⟩ := p
    intro hne hs fuel hfuel rest
    have hv : Json.isScalar v = true := hs (k, v) (by simp)
    obtain ⟨f, rfl⟩ : ∃ f, fuel = f + 1 := ⟨fuel - 1, by omega⟩
    obtain ⟨g, rfl⟩ : ∃ g, f = g + 1 := ⟨f - 1, by simp at hfuel; omega⟩
    cases tail with
    | nil =>
      rw [printFields, quoteChars]
      simp only [List.cons_append, List.append_assoc, List.singleton_append]
      rw [parseFields, if_pos rfl]
      rw [parseStringBody_escape]
      simp only [List.nil_append]
      rw [if_pos trivial]
      rw [parseValue_scalar v hv g ('}' :: rest) (by rw [headNotDigit]; decide)]
      simp only []
      rw [if_pos trivial]
      show some ([(String.mk k.data, v)], rest) = some ([(k, v)], rest)
      rfl
    | cons p2 t2 =>
      rw [printFields, quoteChars]
      simp only [List.cons_append, List.append_assoc, List.singleton_append]
      rw [parseFields, if_pos rfl]
      rw [parseStringBody_escape]
      simp only [List.nil_append]
      rw [if_pos trivial]
      rw [parseValue_scalar v hv g (',' :: (printFields (p2 :: t2) ++ '}' :: rest))
        (by rw [headNotDigit]; decide)]
      simp only []
      rw [if_pos trivial]
      rw [ih (List.cons_ne_nil p2 t2) (fun q hq => hs q (by simp [hq])) (g + 1) (by simp at hfuel ⊢; omega) rest]
      show some ((String.mk k.data, v) :: (p2 :: t2), rest) = some ((k, v) :: p2 :: t2, rest)
      rfl
      exact fun h => List.noConfusion h

theorem printFields_length (fs : List (String × Json)) : fs.length ≤ (printFields fs).length := by
  induction fs with
  | nil => simp [printFields]
  | cons p tail ih =>
    obtain ⟨k, v⟩ := p
    cases tail with
    | nil =>
      rw [printFields]
      simp [quoteChars, List.length_append]
    | cons p2 t2 =>
      rw [printFields]
      · simp only [List.length_cons, List.length_append, quoteChars] at ih ⊢
        simp at ih ⊢
        omega
      · exact fun h => List.noConfusion h

theorem b64_roundtrip (bs : List Nat) (h : ∀ b ∈ bs, b < 256) :
    b64DecodeLenient (b64EncodeBytes bs) = bs := by
  show b64SextetsToBytes (b64CollectSextets (b64EncodeGroups bs)) = bs
  exact b64_roundtrip_chars bs h

/-- JSON.parse inverts JSON.stringify on flat scalar-valued objects. -/
theorem jsonParse_print_obj (fs : List (String × Json))
    (hs : ∀ p ∈ fs, (p.snd).isScalar = true) :
    jsonParseChars (printJson (Json.obj fs)) = some (Json.obj fs) := by
  cases fs with
  | nil => rfl
  | cons p t =>
    obtain ⟨k, v⟩ := p
    rw [jsonParseChars, printJson]
    have hfuel : ('{' :: (printFields ((k, v) :: t) ++ ['}'])).length + 1
        = (printFields ((k, v) :: t)).length + 2 + 1 := by
      simp [List.length_cons, List.length_append]
    rw [hfuel]
    rw [parseValue, if_pos rfl]
    have hshape : ∃ tl, printFields ((k, v) :: t) = Char.ofNat 34 :: tl := by
      cases t with
      | nil =>
        refine ⟨(escapeList k.data ++ [Char.ofNat 34]) ++ (':' :: printJson v), ?_⟩
        rw [printFields, quoteChars, List.cons_append]
      | cons p2 t2 =>
        refine ⟨((escapeList k.data ++ [Char.ofNat 34]) ++ (':' :: printJson v))
          ++ (',' :: printFields (p2 :: t2)), ?_⟩
        rw [printFields]
        · rw [quoteChars, List.cons_append, List.cons_append]
        · exact fun h => List.noConfusion h
    obtain ⟨tl, htl⟩ := hshape
    rw [htl]
    rw [show (Char.ofNat 34 :: tl) ++ ['}'] = Char.ofNat 34 :: (tl ++ ['}']) from rfl]
    rw [show (Char.ofNat 34 :: (tl ++ ['}'])).isEmpty = false from rfl]
    rw [show (Char.ofNat 34 :: (tl ++ ['}'])).headD ' ' = Char.ofNat 34 from rfl]
    rw [if_neg (by decide), if_neg (by decide)]
    rw [← List.cons_append, ← htl]
    rw [show (printFields ((k, v) :: t) ++ ['}'] : List Char)
        = printFields ((k, v) :: t) ++ '}' :: [] from rfl]
    rw [parseFields_print ((k, v) :: t) (List.cons_ne_nil _ _) hs
      ((printFields ((k, v) :: t)).length + 2)
      (by have := printFields_length ((k, v) :: t); simp at this ⊢; omega) []]
    rfl

/-- C3: for every flat cursor payload — an object binding names to
scalar values, the shape a partial primary key snapshot takes — the
decode of the encode returns exactly the payload handed in, same shape
and same value kinds. -/
theorem decodeCursor_encodeCursor (k : List (String × Json))
    (hs : ∀ p ∈ k, (p.snd).isScalar = true) :
    decodeCursor (encodeCursor k) = Except.ok (Json.obj k) := by
  rw [decodeCursor, encodeCursor]
  rw [b64_roundtrip _ (utf8EncodeList_lt256 _)]
  rw [utf8_decode_encode]
  rw [jsonParse_print_obj k hs]

/-- C9 evaluation at the failing input: the five-character string made
of a truncated cursor body with an injected asterisk is not a valid
base64 encoding, yet decodeCursor accepts it and returns the empty
partial key — the one that restarts pagination from the beginning —
because Node's base64 decoder silently skips characters outside the
alphabet. -/
theorem decodeCursor_accepts_tampered :
    isValidBase64 "e3*0=" = false ∧ decodeCursor "e3*0=" = Except.ok (Json.obj []) := by
  constructor
  · rfl
  · rw [decodeCursor]
    rw [show b64DecodeLenient "e3*0=" = [123, 125] from rfl]
    have hu : utf8DecodeLenient [123, 125] = ['{', '}'] := by
      rw [utf8DecodeLenient_cons]
      rw [show utf8Step 123 [125] = (Char.ofNat 123, 0) from rfl]
      rw [show List.drop 0 [125] = ([125] : List Nat) from rfl]
      rw [utf8DecodeLenient_cons]
      rw [show utf8Step 125 [] = (Char.ofNat 125, 0) from rfl]
      rw [show List.drop 0 ([] : List Nat) = ([] : List Nat) from rfl]
      rw [show utf8DecodeLenient [] = [] from by rw [utf8DecodeLenient]]
    rw [hu]
    rfl

/-- C3 witness: a concrete category/id cursor payload round-trips. -/
theorem decodeCursor_encodeCursor_witness :
    decodeCursor (encodeCursor cursorKey0) = Except.ok (Json.obj cursorKey0) :=
  decodeCursor_encodeCursor cursorKey0 (by decide)

end TsOrm
